import Mathlib

/-!
Verification development for the nodejs-powered-ai-chatbot-proxy repository.

The definitions below are a shallow embedding of the repository's two core
services:

* `src/services/proxyService.js` (`ProxyService`): configuration update,
  traffic query, request/response modification, response injection,
  forwarding, traffic logging;
* `src/services/scriptService.js` (`ScriptService`): userscript CRUD and
  sandboxed execution via Node's `vm` module,

together with the mongoose schemas `src/models/ProxyConfig.js` and
`src/models/Userscript.js`.

JavaScript objects are embedded as the inductive `JVal` (field lists keep
insertion order, as JS objects do); the JS spread operator, truthiness and
the `typeof` test used by the services are embedded with their JS meaning.
The mongoose document store is embedded as explicit collection state: a
collection is a list of documents in insertion order, `find` filters it,
`sort({createdAt:-1})` is a newest-first stable sort, `skip`/`limit` slice,
and `findOneAndUpdate({}, u, {new, upsert})` updates the first document
(inserting when the collection is empty); as in mongoose, no schema
validator runs in `findOneAndUpdate` unless `runValidators` is passed,
which `ProxyService.updateProxyConfig` does not do.  Storage faults (the
only remaining `catch` paths of the store-touching methods) are outside the
model, so those operations are total here.
-/

namespace AIIPST

/-- JavaScript runtime values as far as the services inspect them: the
primitives and objects (ordered own-field lists). -/
inductive JVal where
  | undef : JVal
  | vnull : JVal
  | bool : Bool → JVal
  | num : Int → JVal
  | str : String → JVal
  | obj : List (String × JVal) → JVal

/-- JS truthiness: `undefined`, `null`, `false`, `0`, and the empty string
are falsy; every object is truthy. -/
def truthy : JVal → Bool
  | JVal.undef => false
  | JVal.vnull => false
  | JVal.bool b => b
  | JVal.num n => n != 0
  | JVal.str s => s != ""
  | JVal.obj _ => true

/-- JS `typeof x === 'object'` (true for objects and for `null`). -/
def typeofObject : JVal → Bool
  | JVal.vnull => true
  | JVal.obj _ => true
  | _ => false

/-- Whether a value is an object proper. -/
def isObj : JVal → Bool
  | JVal.obj _ => true
  | _ => false

/-- Field list of an object value (empty for non-objects). -/
def objFields : JVal → List (String × JVal)
  | JVal.obj fs => fs
  | _ => []

/-- First binding of a key in a field list. -/
def getField (fs : List (String × JVal)) (k : String) : Option JVal :=
  match fs with
  | [] => none
  | (k', v) :: rest => if k' = k then some v else getField rest k

/-- JS property access `x.k`: `undefined` when the key is absent or the
value is not an object. -/
def getFieldD (x : JVal) (k : String) : JVal :=
  (getField (objFields x) k).getD JVal.undef

/-- Assigning key `k` in an object literal that already spread `fs`: an
existing key keeps its position and gets the new value, a new key is
appended (JS object-literal semantics). -/
def setFieldList (fs : List (String × JVal)) (k : String) (v : JVal) :
    List (String × JVal) :=
  match fs with
  | [] => [(k, v)]
  | (k', v') :: rest =>
    if k' = k then (k', v) :: rest else (k', v') :: setFieldList rest k v

/-- JS spread `{...x}`: own fields of an object, indexed characters of a
string, nothing for other primitives. -/
def spreadJ : JVal → List (String × JVal)
  | JVal.obj fs => fs
  | JVal.str s => (s.toList.enum.map fun ic => (toString ic.1, JVal.str (String.mk [ic.2])))
  | _ => []

/-- Modelled from the spec: the error taxonomy of §7.  The module
`src/utils/errors.js` is required by the services but is not among the
source files, so the error classes are modelled here.  The constructors
carrying a message are the classes the sources throw by these names
(`InvalidRequestError`, `InvalidScriptError`, `ScriptExecutionError`,
`ProxyConfigurationError`, `ProxyTrafficLogError`); the remaining
constructors are the spec's error kinds (`InvalidInputError`,
`DuplicateNameError`, `NotFoundError`, `ForwardingError`,
`ExecutionError{Timeout}`, `ExecutionError{Fault}`, `PersistenceError`),
included so that claims about them are statable. -/
inductive ErrKind where
  | invalidRequestError : String → ErrKind
  | invalidScriptError : String → ErrKind
  | scriptExecutionError : String → ErrKind
  | proxyConfigurationError : String → ErrKind
  | proxyTrafficLogError : String → ErrKind
  | invalidInputError : ErrKind
  | duplicateNameError : ErrKind
  | notFoundError : ErrKind
  | forwardingError : ErrKind
  | executionTimeout : ErrKind
  | executionFault : ErrKind
  | persistenceError : ErrKind
  deriving DecidableEq, Repr

/-- The object built identically by `modifyProxyRequest`,
`modifyProxyResponse` and `injectCustomResponse`:
`{ ...d, headers: { ...d.headers }, body: d.body ? { ...d.body } : null }`. -/
def shallowCopyPayload (d : JVal) : JVal :=
  JVal.obj
    (setFieldList
      (setFieldList (spreadJ d) "headers" (JVal.obj (spreadJ (getFieldD d "headers"))))
      "body"
      (if truthy (getFieldD d "body") then JVal.obj (spreadJ (getFieldD d "body"))
       else JVal.vnull))

/-- `ProxyService.modifyProxyRequest`: rejects falsy or non-object input
with `InvalidRequestError('Invalid request data')`, otherwise returns the
shallow-copied object. -/
def modifyProxyRequest (requestData : JVal) : Except ErrKind JVal :=
  if !(truthy requestData) || !(typeofObject requestData) then
    Except.error (ErrKind.invalidRequestError "Invalid request data")
  else
    Except.ok (shallowCopyPayload requestData)

/-- `ProxyService.modifyProxyResponse`: same construction as
`modifyProxyRequest`, with the response error message. -/
def modifyProxyResponse (responseData : JVal) : Except ErrKind JVal :=
  if !(truthy responseData) || !(typeofObject responseData) then
    Except.error (ErrKind.invalidRequestError "Invalid response data")
  else
    Except.ok (shallowCopyPayload responseData)

/-- `ProxyService.injectCustomResponse`: same validation and construction
as `modifyProxyResponse`; the method touches neither the store nor the
network. -/
def injectCustomResponse (responseData : JVal) : Except ErrKind JVal :=
  if !(truthy responseData) || !(typeofObject responseData) then
    Except.error (ErrKind.invalidRequestError "Invalid response data")
  else
    Except.ok (shallowCopyPayload responseData)

/-- A document of the `ProxyConfig` mongoose collection: its fields, plus
the `createdAt` timestamp the schema defaults to the insertion time. -/
structure MDoc where
  fields : List (String × JVal)
  createdAt : Nat

/-- The state the `ProxyService` methods touch: the single mongoose
collection behind the `ProxyConfig` model (which the service uses both for
the configuration and, in `logProxyTraffic`, for traffic records), and a
count of network calls made through `makeHttpRequest` (the Forwarder). -/
structure ProxyState where
  proxyConfigs : List MDoc
  forwardCalls : Nat

/-- Apply a plain-object mongoose update (treated as `$set` of each field)
to a document's fields. -/
def applyUpdate (fs : List (String × JVal)) (update : List (String × JVal)) :
    List (String × JVal) :=
  match update with
  | [] => fs
  | (k, v) :: rest => applyUpdate (setFieldList fs k v) rest

/-- `ProxyConfig.findOneAndUpdate({}, config, { new: true, upsert: true })`:
the empty filter matches the first document, which is updated in place;
with `upsert`, an empty collection gets a new document.  As in mongoose, no
schema validator runs, because `runValidators` is not passed. -/
def findOneAndUpdateAll (coll : List MDoc) (update : List (String × JVal))
    (now : Nat) : List MDoc :=
  match coll with
  | [] => [⟨update, now⟩]
  | d :: rest => ⟨applyUpdate d.fields update, d.createdAt⟩ :: rest

/-- `ProxyService.updateProxyConfig(config)`: performs the upserting update
and reports success; the only `catch` path is a storage fault (surfaced as
`ProxyConfigurationError`), outside the model. -/
def updateProxyConfig (config : List (String × JVal)) (st : ProxyState)
    (now : Nat) : Except ErrKind Unit × ProxyState :=
  (Except.ok (), ⟨findOneAndUpdateAll st.proxyConfigs config now, st.forwardCalls⟩)

/-- `ProxyService.getProxyConfig()`: `ProxyConfig.findOne({})`, the first
document of the collection. -/
def getProxyConfig (st : ProxyState) : Option MDoc :=
  st.proxyConfigs.head?

/-- Split a character list into the dot-separated groups. -/
def splitOnDot : List Char → List (List Char)
  | [] => [[]]
  | c :: rest =>
    match splitOnDot rest with
    | [] => if c = '.' then [[], []] else [[c]]
    | g :: gs => if c = '.' then [] :: g :: gs else (c :: g) :: gs

/-- The hostname validator of `src/models/ProxyConfig.js`:
`/^[a-zA-Z0-9-]+(\.[a-zA-Z0-9-]+)*$/` — dot-separated non-empty labels of
letters, digits and hyphens. -/
def validHostname (s : String) : Bool :=
  (splitOnDot s.toList).all fun label =>
    !label.isEmpty && label.all fun c => c.isAlphanum || c == '-'

/-- The paths of `proxyConfigSchema` (`src/models/ProxyConfig.js`), beside
the timestamp defaults. -/
def proxyConfigSchemaPaths : List String :=
  ["targetHostname", "targetPort", "requestModifications", "responseModifications"]

/-- `new ProxyConfig(fields)`: the schema is strict (mongoose default, no
override anywhere in the sources), so construction keeps only the schema's
own paths and silently drops every other field. -/
def proxyConfigConstruct (fields : List (String × JVal)) : List (String × JVal) :=
  fields.filter fun kv => proxyConfigSchemaPaths.contains kv.1

/-- `save()` validation of a `ProxyConfig` document: the required
`targetHostname` must be present and match the hostname grammar, and the
required `targetPort` must be present and lie in 1–65535. -/
def proxyConfigSaveOk (doc : List (String × JVal)) : Bool :=
  (match getField doc "targetHostname" with
   | some (JVal.str s) => validHostname s
   | _ => false) &&
  (match getField doc "targetPort" with
   | some (JVal.num n) => decide (1 ≤ n) && decide (n ≤ 65535)
   | _ => false)

/-- `ProxyService.logProxyTraffic(request, response)`: builds
`new ProxyConfig({method, url, headers, body, statusCode, responseHeaders,
responseBody})` and saves it into the shared collection.  The strict-mode
schema strips every one of those traffic fields at construction (none is a
schema path), so `save()` always fails validation — the required
`targetHostname` and `targetPort` are absent — and the `catch` rethrows
`ProxyTrafficLogError('Error logging proxy traffic')`: nothing is ever
stored. -/
def logProxyTraffic (request response : JVal) (st : ProxyState) (now : Nat) :
    Except ErrKind Unit × ProxyState :=
  let doc := proxyConfigConstruct
    [("method", getFieldD request "method"),
     ("url", getFieldD request "url"),
     ("headers", getFieldD request "headers"),
     ("body", getFieldD request "body"),
     ("statusCode", getFieldD response "statusCode"),
     ("responseHeaders", getFieldD response "headers"),
     ("responseBody", getFieldD response "body")]
  if proxyConfigSaveOk doc then
    (Except.ok (), ⟨st.proxyConfigs ++ [⟨doc, now⟩], st.forwardCalls⟩)
  else
    (Except.error (ErrKind.proxyTrafficLogError "Error logging proxy traffic"), st)

/-- Modelled from the spec: `transformRequestResponse` is imported from
`src/utils/helpers.js` but not defined there; §4.2 only shapes the raw
response, so it is modelled as the identity on the already-shaped response
value. -/
def transformRequestResponse (response : JVal) : JVal := response

/-- `ProxyService.forwardProxyRequest(modifiedRequest)`: one network call
through `makeHttpRequest` (modelled as the abstract `targetResponse` the
target answers, `makeHttpRequest` itself being absent from
`src/utils/helpers.js`), then `await this.logProxyTraffic(...)` on the
transformed response; an error from the logging step is caught and
rethrown as `ProxyTrafficLogError('Error forwarding proxy request')`. -/
def forwardProxyRequest (modifiedRequest targetResponse : JVal)
    (st : ProxyState) (now : Nat) : Except ErrKind JVal × ProxyState :=
  let st1 : ProxyState := ⟨st.proxyConfigs, st.forwardCalls + 1⟩
  let transformed := transformRequestResponse targetResponse
  match logProxyTraffic modifiedRequest transformed st1 now with
  | (Except.ok _, st2) => (Except.ok transformed, st2)
  | (Except.error _, st2) =>
    (Except.error (ErrKind.proxyTrafficLogError "Error forwarding proxy request"), st2)

/-- `ProxyService.injectCustomResponse` as a transition on the service
state: the method body reads neither the models nor the network, so the
state passes through untouched. -/
def injectCustomResponseS (responseData : JVal) (st : ProxyState) :
    Except ErrKind JVal × ProxyState :=
  (injectCustomResponse responseData, st)

/-- One call to a state-touching `ProxyService` method (`getProxyConfig`
and `getProxyTraffic` are read-only, and the script registry lives in a
different collection). -/
inductive ProxyOp where
  | update : List (String × JVal) → Nat → ProxyOp
  | logTraffic : JVal → JVal → Nat → ProxyOp
  | forward : JVal → JVal → Nat → ProxyOp
  | inject : JVal → ProxyOp

/-- The service state after one method call. -/
def applyOp (st : ProxyState) : ProxyOp → ProxyState
  | ProxyOp.update config now => (updateProxyConfig config st now).2
  | ProxyOp.logTraffic request response now =>
    (logProxyTraffic request response st now).2
  | ProxyOp.forward modifiedRequest targetResponse now =>
    (forwardProxyRequest modifiedRequest targetResponse st now).2
  | ProxyOp.inject responseData => (injectCustomResponseS responseData st).2

/-- The service states reachable from the empty deployment by
`ProxyService` calls. -/
inductive ReachableProxy : ProxyState → Prop where
  | init : ReachableProxy ⟨[], 0⟩
  | step : ∀ st op, ReachableProxy st → ReachableProxy (applyOp st op)

/-- Case-insensitive character-list prefix test. -/
def charsBeginWith : List Char → List Char → Bool
  | _, [] => true
  | [], _ :: _ => false
  | c :: cs, p :: ps => p == c && charsBeginWith cs ps

/-- Case-insensitive character-list substring test. -/
def charsHaveSub (s pat : List Char) : Bool :=
  match s with
  | [] => pat.isEmpty
  | _ :: t => charsBeginWith s pat || charsHaveSub t pat

/-- `new RegExp(pat, 'i').test(hay)` for a pattern without regex
metacharacters: case-insensitive substring containment. -/
def ciContains (hay pat : String) : Bool :=
  charsHaveSub (hay.toList.map Char.toLower) (pat.toList.map Char.toLower)

/-- The filters `ProxyService.getProxyTraffic` receives: mandatory date
range, optional target-url pattern and method, 1-indexed page and page
size. -/
structure TrafficFilters where
  startDate : Nat
  endDate : Nat
  targetUrl : Option String
  method : Option String
  page : Nat
  limit : Nat

/-- The mongo query `getProxyTraffic` builds:
`createdAt: {$gte: startDate, $lte: endDate}`, plus
`targetUrl: {$regex: new RegExp(filters.targetUrl, 'i')}` when a target-url
filter is given (a document without a `targetUrl` string field never
matches), plus `method: filters.method` when a method filter is given. -/
def matchesQuery (f : TrafficFilters) (d : MDoc) : Bool :=
  decide (f.startDate ≤ d.createdAt) && decide (d.createdAt ≤ f.endDate) &&
  (match f.targetUrl with
   | none => true
   | some pat =>
     match getField d.fields "targetUrl" with
     | some (JVal.str s) => ciContains s pat
     | _ => false) &&
  (match f.method with
   | none => true
   | some m =>
     match getField d.fields "method" with
     | some (JVal.str s) => s == m
     | _ => false)

/-- Insert a document into a list already sorted newest-first, after any
document with a strictly or equally newer timestamp — the stable
newest-first order of `sort({createdAt:-1})` under the spec's document
store contract (ties keep insertion order). -/
def insertNewestFirst (d : MDoc) : List MDoc → List MDoc
  | [] => [d]
  | e :: es =>
    if e.createdAt < d.createdAt then d :: e :: es
    else e :: insertNewestFirst d es

/-- Stable newest-first sort by `createdAt`. -/
def sortNewestFirst : List MDoc → List MDoc
  | [] => []
  | d :: ds => insertNewestFirst d (sortNewestFirst ds)

/-- `ProxyService.getProxyTraffic(filters)`:
`ProxyConfig.find(query).sort({createdAt:-1}).skip((page-1)*limit).limit(limit)`
over the shared `ProxyConfig` collection. -/
def getProxyTraffic (f : TrafficFilters) (st : ProxyState) : List MDoc :=
  (((sortNewestFirst (st.proxyConfigs.filter (matchesQuery f))).drop
      ((f.page - 1) * f.limit)).take f.limit)

/-- The execution context handed to `ScriptService.executeScript`: a JS
object, embedded as its bindings. -/
abbrev Ctx := List (String × JVal)

/-- Current binding of a key in a context. -/
def getKey (ctx : Ctx) (k : String) : Option JVal :=
  match ctx with
  | [] => none
  | (k', v) :: rest => if k' = k then some v else getKey rest k

/-- Overwrite or add a binding in a context (JS property write on the
contextified object). -/
def setKey (ctx : Ctx) (k : String) (v : JVal) : Ctx :=
  match ctx with
  | [] => [(k, v)]
  | (k', v') :: rest =>
    if k' = k then (k', v) :: rest else (k', v') :: setKey rest k v

/-- Userscript code bodies are opaque JavaScript text run by the `vm`
module; they are embedded as the behaviours the claims exercise: writing a
global of the execution context, completing with a value, reading a global
and completing with it, throwing a runtime error, and a CPU-bound loop
that never yields. -/
inductive Script where
  | assign : String → JVal → Script → Script
  | ret : JVal → Script
  | readRet : String → Script
  | throwErr : String → Script
  | loopForever : Script

/-- The ways a `vm.runInContext` run can end: a completion value, the
wall-clock `timeout: 5000` kill, or an error thrown by the script. -/
inductive SandboxOutcome where
  | ok : JVal → SandboxOutcome
  | timedOut : SandboxOutcome
  | thrown : String → SandboxOutcome

/-- Run an embedded script against the globals of a vm context.  The
wall-clock budget is embedded as fuel: a script still running when the
fuel is exhausted is killed with the timeout outcome.  Every global write
lands in the context object itself, as `vm` semantics has it. -/
def runScript : Nat → Script → Ctx → SandboxOutcome × Ctx
  | 0, _, ctx => (SandboxOutcome.timedOut, ctx)
  | fuel + 1, s, ctx =>
    match s with
    | Script.assign k v rest => runScript fuel rest (setKey ctx k v)
    | Script.ret v => (SandboxOutcome.ok v, ctx)
    | Script.readRet k => (SandboxOutcome.ok ((getKey ctx k).getD JVal.undef), ctx)
    | Script.throwErr _ => (SandboxOutcome.thrown "runtime error", ctx)
    | Script.loopForever => runScript fuel Script.loopForever ctx

/-- `ScriptService.executeInSandbox(scriptContent, context)`:
`vm.createContext(context)` contextifies the caller's `context` object
itself — no copy is taken, so the sandbox globals are the caller's object
and every write the script makes is a write to it.  A completed run
returns its value; the timeout kill and any thrown error are both caught
and rethrown as `ScriptExecutionError('Error executing script in
sandbox')`.  The second component is the caller's context object after the
call. -/
def executeInSandbox (scriptContent : Script) (context : Ctx) (budget : Nat) :
    Except ErrKind JVal × Ctx :=
  let sandbox := context
  match runScript budget scriptContent sandbox with
  | (SandboxOutcome.ok v, ctx') => (Except.ok v, ctx')
  | (SandboxOutcome.timedOut, ctx') =>
    (Except.error (ErrKind.scriptExecutionError "Error executing script in sandbox"), ctx')
  | (SandboxOutcome.thrown _, ctx') =>
    (Except.error (ErrKind.scriptExecutionError "Error executing script in sandbox"), ctx')

/-- A stored userscript document (`src/models/Userscript.js`). -/
structure ScriptDoc where
  sid : String
  name : String
  description : String
  content : Script
  createdAt : Nat
  updatedAt : Nat

/-- The `Userscript` collection in insertion order. -/
abbrev ScriptStore := List ScriptDoc

/-- The data `ScriptService.createScript` receives. -/
structure ScriptData where
  name : String
  description : String
  content : Script

/-- Modelled from the spec: `sanitizeScript` is imported from
`src/utils/helpers.js` but not defined there; per §4.4 creation validates
the name (done by the schema below), so the sanitizer is modelled as the
identity on already-clean data — every input in this development is
clean. -/
def sanitizeScript (d : ScriptData) : ScriptData := d

/-- The name validator of `src/models/Userscript.js`: `/^[\w\-]+$/` —
non-empty, letters, digits, underscores and hyphens only. -/
def validScriptName (s : String) : Bool :=
  s ≠ "" && s.toList.all fun c => c.isAlphanum || c == '_' || c == '-'

/-- `new Userscript(data).save()`: mongoose runs the schema validators
(name charset, required non-empty strings) and the unique index on `name`
rejects a duplicate; a passing document is appended to the collection. -/
def userscriptSave (d : ScriptData) (st : ScriptStore) (newId : String)
    (now : Nat) : Option (ScriptDoc × ScriptStore) :=
  if validScriptName d.name && d.description != "" &&
      st.all (fun s => s.name != d.name) then
    some (⟨newId, d.name, d.description, d.content, now, now⟩,
      st ++ [⟨newId, d.name, d.description, d.content, now, now⟩])
  else none

/-- `ScriptService.createScript(scriptData)`: sanitizes, saves; any error
raised inside — validation failure, duplicate name, storage fault alike —
is caught and rethrown as `InvalidScriptError('Error creating
userscript')`, leaving the collection as it was. -/
def createScript (scriptData : ScriptData) (st : ScriptStore) (newId : String)
    (now : Nat) : Except ErrKind ScriptDoc × ScriptStore :=
  match userscriptSave (sanitizeScript scriptData) st newId now with
  | some (doc, st') => (Except.ok doc, st')
  | none => (Except.error (ErrKind.invalidScriptError "Error creating userscript"), st)

/-- `Userscript.findById`. -/
def findScript (st : ScriptStore) (id : String) : Option ScriptDoc :=
  match st with
  | [] => none
  | s :: rest => if s.sid = id then some s else findScript rest id

/-- `ScriptService.getScriptById(id)`: a missing script raises
`InvalidScriptError('Userscript with ID … not found')` inside the `try`,
which the method's own `catch` replaces with
`InvalidScriptError('Error fetching userscript (ID: …)')`. -/
def getScriptById (id : String) (st : ScriptStore) : Except ErrKind ScriptDoc :=
  match findScript st id with
  | some s => Except.ok s
  | none =>
    Except.error (ErrKind.invalidScriptError ("Error fetching userscript (ID: " ++ id ++ ")"))

/-- `ScriptService.executeScript(id, context)`: fetches the script and runs
it in the sandbox; any error from either step is caught and rethrown as
`ScriptExecutionError('Error executing userscript (ID: …)')`.  The second
component is the caller's context object after the call (mutated in place
by the sandbox run even when the run fails). -/
def executeScript (id : String) (context : Ctx) (st : ScriptStore)
    (budget : Nat) : Except ErrKind JVal × Ctx :=
  match getScriptById id st with
  | Except.error _ =>
    (Except.error (ErrKind.scriptExecutionError ("Error executing userscript (ID: " ++ id ++ ")")), context)
  | Except.ok s =>
    match executeInSandbox s.content context budget with
    | (Except.ok v, ctx') => (Except.ok v, ctx')
    | (Except.error _, ctx') =>
      (Except.error (ErrKind.scriptExecutionError ("Error executing userscript (ID: " ++ id ++ ")")), ctx')

/-- A JS runtime value as stored in a field: a primitive, or a reference to
an object on the heap.  This store-level view makes object identity and
in-place mutation expressible. -/
inductive HVal where
  | undef : HVal
  | vnull : HVal
  | bool : Bool → HVal
  | num : Int → HVal
  | str : String → HVal
  | ref : Nat → HVal
  deriving DecidableEq, Repr

/-- An object on the heap: its ordered own fields. -/
abbrev HObj := List (String × HVal)

/-- The object heap: addresses are indices, allocation appends. -/
structure Heap where
  objs : List HObj
  deriving DecidableEq, Repr

/-- Total indexing into an object list (empty past the end). -/
def nthObj : List HObj → Nat → HObj
  | [], _ => []
  | o :: _, 0 => o
  | _ :: rest, n + 1 => nthObj rest n

/-- Replace the object at an index (no-op past the end). -/
def setNth : List HObj → Nat → HObj → List HObj
  | [], _, _ => []
  | _ :: rest, 0, x => x :: rest
  | o :: rest, n + 1, x => o :: setNth rest n x

/-- The object at an address (empty past the end). -/
def getObjH (h : Heap) (a : Nat) : HObj :=
  nthObj h.objs a

/-- Allocate a fresh object, returning the grown heap and its address. -/
def allocH (h : Heap) (o : HObj) : Heap × Nat :=
  (⟨h.objs ++ [o]⟩, h.objs.length)

/-- First binding of a key in an object's fields. -/
def getFieldH (o : HObj) (k : String) : Option HVal :=
  match o with
  | [] => none
  | (k', v) :: rest => if k' = k then some v else getFieldH rest k

/-- JS property read: `undefined` when absent. -/
def fieldD (o : HObj) (k : String) : HVal :=
  (getFieldH o k).getD HVal.undef

/-- Write or add a field, keeping an existing key's position. -/
def setFieldListH (o : HObj) (k : String) (v : HVal) : HObj :=
  match o with
  | [] => [(k, v)]
  | (k', v') :: rest =>
    if k' = k then (k', v) :: rest else (k', v') :: setFieldListH rest k v

/-- Mutate one field of the object at an address. -/
def setFieldH (h : Heap) (a : Nat) (k : String) (v : HVal) : Heap :=
  ⟨setNth h.objs a (setFieldListH (getObjH h a) k v)⟩

/-- JS truthiness of a stored value: every object reference is truthy. -/
def truthyH : HVal → Bool
  | HVal.undef => false
  | HVal.vnull => false
  | HVal.bool b => b
  | HVal.num n => n != 0
  | HVal.str s => s != ""
  | HVal.ref _ => true

/-- JS spread `{...v}` at store level: the fields of the referenced object
(their values copied as stored, so references are shared), the indexed
characters of a string, nothing for other primitives. -/
def spreadH (h : Heap) (v : HVal) : HObj :=
  match v with
  | HVal.ref a => getObjH h a
  | HVal.str s => s.toList.enum.map fun ic => (toString ic.1, HVal.str (String.mk [ic.2]))
  | _ => []

/-- `ProxyService.modifyProxyRequest` at store level, on an input object
address: evaluates `{...requestData, headers: {...requestData.headers},
body: requestData.body ? {...requestData.body} : null}` — the headers
literal is allocated, then the body literal when `requestData.body` is
truthy, then the outer object.  Returns the grown heap and the address of
the returned object. -/
def modifyProxyRequestH (h : Heap) (ra : Nat) : Heap × Nat :=
  let top := getObjH h ra
  let headersAlloc := allocH h (spreadH h (fieldD top "headers"))
  let bodyVal := fieldD top "body"
  if truthyH bodyVal then
    let bodyAlloc := allocH headersAlloc.1 (spreadH headersAlloc.1 bodyVal)
    allocH bodyAlloc.1
      (setFieldListH (setFieldListH top "headers" (HVal.ref headersAlloc.2))
        "body" (HVal.ref bodyAlloc.2))
  else
    allocH headersAlloc.1
      (setFieldListH (setFieldListH top "headers" (HVal.ref headersAlloc.2))
        "body" HVal.vnull)

/-- Read a stored value out as a pure value tree, following references up
to `fuel` levels (a reference beyond the fuel reads as `undefined`). -/
def materialize (h : Heap) : Nat → HVal → JVal
  | _, HVal.undef => JVal.undef
  | _, HVal.vnull => JVal.vnull
  | _, HVal.bool b => JVal.bool b
  | _, HVal.num n => JVal.num n
  | _, HVal.str s => JVal.str s
  | 0, HVal.ref _ => JVal.undef
  | fuel + 1, HVal.ref a =>
    JVal.obj ((getObjH h a).map fun kv => (kv.1, materialize h fuel kv.2))

/-- Addresses reachable from a stored value within `fuel` dereference
steps. -/
def reach (h : Heap) : Nat → HVal → List Nat
  | 0, _ => []
  | fuel + 1, v =>
    match v with
    | HVal.ref a => a :: ((getObjH h a).map fun kv => reach h fuel kv.2).flatten
    | _ => []

/-- The spec's §8 injection example:
`{statusCode: 200, headers: {"Content-Type": "application/json"}, body: {data: "bar"}}`. -/
def exInjectSpec : JVal :=
  JVal.obj
    [("statusCode", JVal.num 200),
     ("headers", JVal.obj [("Content-Type", JVal.str "application/json")]),
     ("body", JVal.obj [("data", JVal.str "bar")])]

/-- A service state with an empty `ProxyConfig` collection and no network
calls made. -/
def exState0 : ProxyState := ⟨[], 0⟩

/-- A request whose `body` is the truthy non-object `42`. -/
def exBody42Request : JVal :=
  JVal.obj
    [("method", JVal.str "GET"), ("url", JVal.str "/"),
     ("headers", JVal.obj []), ("body", JVal.num 42)]

/-- A request without a `body` field. -/
def exNoBodyRequest : JVal :=
  JVal.obj
    [("method", JVal.str "GET"), ("url", JVal.str "/"),
     ("headers", JVal.obj [])]

/-- A proxied request to `https://example.com/api`. -/
def exTrafficRequest : JVal :=
  JVal.obj
    [("method", JVal.str "GET"), ("url", JVal.str "https://example.com/api"),
     ("headers", JVal.obj []), ("body", JVal.vnull)]

/-- A plain 200 response. -/
def exTrafficResponse : JVal :=
  JVal.obj
    [("statusCode", JVal.num 200), ("headers", JVal.obj []),
     ("body", JVal.vnull)]

/-- A traffic query over the full range with no target-url and no method
filter. -/
def exNoFilterQuery : TrafficFilters := ⟨0, 100, none, none, 1, 10⟩

/-- The spec's §8 invalid-update input:
`{targetHostname: "bad hostname!", targetPort: 80}`. -/
def exBadConfig : List (String × JVal) :=
  [("targetHostname", JVal.str "bad hostname!"), ("targetPort", JVal.num 80)]

/-- A valid configuration. -/
def exGoodConfig : List (String × JVal) :=
  [("targetHostname", JVal.str "example.com"), ("targetPort", JVal.num 80)]

/-- The (reachable) state after one configuration update of the empty
deployment at time 1: the collection holds the configuration document. -/
def exConfigState : ProxyState := (updateProxyConfig exGoodConfig exState0 1).2

/-- A stored userscript named `dup-script`. -/
def exScriptDoc : ScriptDoc :=
  ⟨"id1", "dup-script", "first script", Script.ret JVal.vnull, 0, 0⟩

/-- A store already holding `dup-script`. -/
def exScriptStore : ScriptStore := [exScriptDoc]

/-- Creation data reusing the stored name `dup-script`. -/
def exDupData : ScriptData :=
  ⟨"dup-script", "second script", Script.ret JVal.vnull⟩

/-- A script that writes the global `x` and completes. -/
def exWriteScript : Script :=
  Script.assign "x" (JVal.num 1) (Script.ret JVal.vnull)

/-- A store holding, under id `s`, a script that never yields. -/
def exTimeoutStore : ScriptStore :=
  [⟨"s", "spinning", "busy loop", Script.loopForever, 0, 0⟩]

/-- A store holding, under the same id `s`, a script that throws. -/
def exFaultStore : ScriptStore :=
  [⟨"s", "faulting", "throws", Script.throwErr "boom", 0, 0⟩]

/-- A heap holding a request object at address 0 whose `headers` object
(address 1) contains a nested object (address 2). -/
def exHeap : Heap :=
  ⟨[[("method", HVal.str "GET"), ("url", HVal.str "/"),
     ("headers", HVal.ref 1), ("body", HVal.vnull)],
    [("inner", HVal.ref 2)],
    [("x", HVal.num 1)]]⟩

theorem runScript_loopForever (ctx : Ctx) :
    ∀ budget, runScript budget Script.loopForever ctx = (SandboxOutcome.timedOut, ctx)
  | 0 => rfl
  | budget + 1 => by
    rw [show runScript (budget + 1) Script.loopForever ctx
        = runScript budget Script.loopForever ctx from rfl]
    exact runScript_loopForever ctx budget

/-- C1: `executeInSandbox` contextifies the caller's context object itself
(`vm.createContext(context)` takes no snapshot), so the script's global
writes land in, and are visible through, the caller's original context
object, refuting the claim that mutations made by the script are never
visible to the caller: running a script that writes the fresh key `x`
against an empty context leaves the caller's context holding `x = 1`. -/
theorem claim1_counterexample :
    executeInSandbox exWriteScript [] 5000 = (Except.ok JVal.vnull, [("x", JVal.num 1)])
    ∧ ([("x", JVal.num 1)] : Ctx) ≠ [] :=
  ⟨rfl, by simp⟩

/-- C1 (amended): the sandbox state is the caller's context object, not a
shallow-copied snapshot: a script writing key `k` leaves the binding
`k = v` in the caller's context after the call, and a script reading key
`k` sees exactly the caller's current binding. -/
theorem claim1_theorem (k : String) (v : JVal) (ctx : Ctx) (budget : Nat) :
    (executeInSandbox (Script.assign k v (Script.ret JVal.vnull)) ctx (budget + 2)).2
      = setKey ctx k v
    ∧ (executeInSandbox (Script.assign k v (Script.ret JVal.vnull)) ctx (budget + 2)).1
      = Except.ok JVal.vnull
    ∧ (executeInSandbox (Script.readRet k) ctx (budget + 1)).1
      = Except.ok ((getKey ctx k).getD JVal.undef) :=
  ⟨rfl, rfl, rfl⟩

/-- C2: a never-yielding script run under the budget is killed, but the
failure surfaces as the undifferentiated
`ScriptExecutionError('Error executing script in sandbox')` — not as an
`ExecutionError{Timeout}` — refuting the claimed timeout classification. -/
theorem claim2_counterexample :
    (executeInSandbox Script.loopForever [] 5000).1
      = Except.error (ErrKind.scriptExecutionError "Error executing script in sandbox")
    ∧ (executeInSandbox Script.loopForever [] 5000).1
      ≠ Except.error ErrKind.executionTimeout := by
  have h := runScript_loopForever [] 5000
  constructor
  · simp [executeInSandbox, h]
  · simp only [executeInSandbox, h]
    intro hEq
    injection hEq with h2
    exact ErrKind.noConfusion h2

/-- C2 (amended): for every context and every budget, executing a
never-yielding script terminates (the budget, embedded as fuel, kills it),
yields no partial result value, reports the undifferentiated
`ScriptExecutionError('Error executing script in sandbox')`, and leaves
the caller's context unchanged. -/
theorem claim2_theorem (ctx : Ctx) (budget : Nat) :
    (executeInSandbox Script.loopForever ctx budget).1
      = Except.error (ErrKind.scriptExecutionError "Error executing script in sandbox")
    ∧ (executeInSandbox Script.loopForever ctx budget).2 = ctx := by
  have h := runScript_loopForever ctx budget
  constructor <;> simp [executeInSandbox, h]

/-- C3: the two failure kinds are not distinguishable by the caller: a
timeout run and a faulting run of the same script id produce identical
`ScriptExecutionError` values, refuting the claimed Timeout/Fault
distinction. -/
theorem claim3_counterexample :
    (executeScript "s" [] exTimeoutStore 10).1 = (executeScript "s" [] exFaultStore 10).1
    ∧ (executeScript "s" [] exTimeoutStore 10).1
      = Except.error (ErrKind.scriptExecutionError "Error executing userscript (ID: s)") :=
  ⟨rfl, rfl⟩

/-- C3 (amended): every invocation of `executeScript` yields exactly one
outcome — either a single complete result value, or the one collapsed
failure `ScriptExecutionError('Error executing userscript (ID: …)')`,
which does not distinguish timeout from fault (nor from a missing
script). -/
theorem claim3_theorem (id : String) (ctx : Ctx) (st : ScriptStore) (budget : Nat) :
    (∃ v, (executeScript id ctx st budget).1 = Except.ok v)
    ∨ (executeScript id ctx st budget).1
      = Except.error (ErrKind.scriptExecutionError ("Error executing userscript (ID: " ++ id ++ ")")) := by
  unfold executeScript
  cases h1 : getScriptById id st with
  | error e => right; rfl
  | ok s =>
    rcases h2 : executeInSandbox s.content ctx budget with ⟨r, ctx'⟩
    cases r with
    | ok v => left; exact ⟨v, by simp [h2]⟩
    | error e => right; simp [h2]

theorem getField_setFieldList_same (fs : List (String × JVal)) (k : String) (v : JVal) :
    getField (setFieldList fs k v) k = some v := by
  induction fs with
  | nil => simp [setFieldList, getField]
  | cons p rest ih =>
    by_cases hk : p.1 = k
    · simp [setFieldList, hk, getField]
    · simp [setFieldList, hk, getField, ih]

theorem setFieldList_self (fs : List (String × JVal)) (k : String) (v : JVal)
    (h : getField fs k = some v) : setFieldList fs k v = fs := by
  induction fs with
  | nil => simp [getField] at h
  | cons p rest ih =>
    by_cases hk : p.1 = k
    · rcases p with ⟨k', v'⟩
      simp only at hk
      subst hk
      simp [getField] at h
      simp [setFieldList, h]
    · rcases p with ⟨k', v'⟩
      simp only at hk
      simp [getField, hk] at h
      simp [setFieldList, hk, ih h]

/-- C10: a truthy non-object body is not carried over: the copy `{...42}`
is the empty object, so a request whose body is `42` comes back with
`body: {}`, refuting the claim that a present truthy body is carried over
as a copied object. -/
theorem claim10_counterexample :
    modifyProxyRequest exBody42Request
      = Except.ok (JVal.obj
          [("method", JVal.str "GET"), ("url", JVal.str "/"),
           ("headers", JVal.obj []), ("body", JVal.obj [])])
    ∧ getFieldD exBody42Request "body" = JVal.num 42
    ∧ (JVal.obj [] : JVal) ≠ JVal.num 42 :=
  ⟨rfl, rfl, fun h => JVal.noConfusion h⟩

/-- C10 (amended): on every accepted input (truthy object), both
`modifyProxyRequest` and `modifyProxyResponse` return the shallow-copied
object, whose `body` field is exactly `null` whenever the input body is
absent or falsy, and is the value-equal copy of the input body whenever
that body is an object; (truthy non-object bodies are instead replaced by
the object of their enumerable own properties, see the counterexample). -/
theorem claim10_theorem (r : JVal) (h : (truthy r && typeofObject r) = true) :
    modifyProxyRequest r = Except.ok (shallowCopyPayload r)
    ∧ modifyProxyResponse r = Except.ok (shallowCopyPayload r)
    ∧ (truthy (getFieldD r "body") = false →
        getField (objFields (shallowCopyPayload r)) "body" = some JVal.vnull)
    ∧ (∀ bf, getFieldD r "body" = JVal.obj bf →
        getField (objFields (shallowCopyPayload r)) "body" = some (JVal.obj bf)) := by
  rw [Bool.and_eq_true] at h
  refine ⟨?_, ?_, ?_, ?_⟩
  · simp [modifyProxyRequest, h.1, h.2]
  · simp [modifyProxyResponse, h.1, h.2]
  · intro hb
    simp [shallowCopyPayload, hb, objFields, getField_setFieldList_same]
  · intro bf hbf
    simp [shallowCopyPayload, hbf, truthy, spreadJ, objFields, getField_setFieldList_same]

theorem claim10_witness :
    (truthy exNoBodyRequest && typeofObject exNoBodyRequest) = true
    ∧ truthy (getFieldD exNoBodyRequest "body") = false
    ∧ getField (objFields (shallowCopyPayload exNoBodyRequest)) "body" = some JVal.vnull :=
  ⟨rfl, rfl, (claim10_theorem exNoBodyRequest rfl).2.2.1 rfl⟩

/-- C4: injecting the spec's example response creates no TrafficRecord at
all — the service state (the `ProxyConfig` collection and the Forwarder
call count) is untouched — so no record tagged `origin=injected` results,
refuting that part of the claim (no `origin` field exists anywhere in the
data model). -/
theorem claim4_counterexample :
    injectCustomResponseS exInjectSpec exState0 = (Except.ok exInjectSpec, exState0)
    ∧ (injectCustomResponseS exInjectSpec exState0).2.proxyConfigs = ([] : List MDoc)
    ∧ (injectCustomResponseS exInjectSpec exState0).2.forwardCalls = 0 :=
  ⟨rfl, rfl, rfl⟩

/-- C4 (amended): for every response spec that is an object,
`injectCustomResponse` returns the shallow-copied spec (value-equal to the
spec itself whenever its `headers` and `body` fields are objects), the
Forwarder is never invoked, and no TrafficRecord is created: the service
state passes through unchanged. -/
theorem claim4_theorem (r : JVal) (st : ProxyState)
    (h : (truthy r && typeofObject r) = true) :
    injectCustomResponseS r st = (Except.ok (shallowCopyPayload r), st)
    ∧ ((∃ hf, getFieldD r "headers" = JVal.obj hf) →
        (∃ bf, getFieldD r "body" = JVal.obj bf) → shallowCopyPayload r = r) := by
  rw [Bool.and_eq_true] at h
  constructor
  · simp [injectCustomResponseS, injectCustomResponse, h.1, h.2]
  · rintro ⟨hf, hh⟩ ⟨bf, hb⟩
    rcases r with _ | _ | b | n | s | fs <;>
      simp [truthy, typeofObject] at h
    simp only [getFieldD, objFields] at hh hb
    have hh' : getField fs "headers" = some (JVal.obj hf) := by
      rcases hgf : getField fs "headers" with _ | w
      · rw [hgf] at hh; simp at hh
      · rw [hgf] at hh; simp at hh; rw [hh]
    have hb' : getField fs "body" = some (JVal.obj bf) := by
      rcases hgb : getField fs "body" with _ | w
      · rw [hgb] at hb; simp at hb
      · rw [hgb] at hb; simp at hb; rw [hb]
    simp only [shallowCopyPayload, getFieldD, objFields, hh', hb', Option.getD_some,
      spreadJ, truthy, if_true, ite_true]
    rw [setFieldList_self fs "headers" (JVal.obj hf) hh']
    rw [setFieldList_self fs "body" (JVal.obj bf) hb']

theorem claim4_witness :
    (truthy exInjectSpec && typeofObject exInjectSpec) = true
    ∧ injectCustomResponseS exInjectSpec exState0
      = (Except.ok (shallowCopyPayload exInjectSpec), exState0)
    ∧ shallowCopyPayload exInjectSpec = exInjectSpec :=
  ⟨rfl, (claim4_theorem exInjectSpec exState0 rfl).1,
    (claim4_theorem exInjectSpec exState0 rfl).2
      ⟨[("Content-Type", JVal.str "application/json")], rfl⟩
      ⟨[("data", JVal.str "bar")], rfl⟩⟩

theorem logProxyTraffic_fails (request response : JVal) (st : ProxyState) (now : Nat) :
    logProxyTraffic request response st now
      = (Except.error (ErrKind.proxyTrafficLogError "Error logging proxy traffic"), st) :=
  rfl

theorem forwardProxyRequest_eq (modifiedRequest targetResponse : JVal)
    (st : ProxyState) (now : Nat) :
    forwardProxyRequest modifiedRequest targetResponse st now
      = (Except.error (ErrKind.proxyTrafficLogError "Error forwarding proxy request"),
         ⟨st.proxyConfigs, st.forwardCalls + 1⟩) :=
  rfl

theorem mem_insertNewestFirst (d e : MDoc) (l : List MDoc) :
    e ∈ insertNewestFirst d l ↔ e = d ∨ e ∈ l := by
  induction l with
  | nil => simp [insertNewestFirst]
  | cons a rest ih =>
    by_cases hc : a.createdAt < d.createdAt
    · simp [insertNewestFirst, hc]
    · simp only [insertNewestFirst, hc, if_false, List.mem_cons, ih]
      tauto

theorem mem_sortNewestFirst (e : MDoc) (l : List MDoc) :
    e ∈ sortNewestFirst l ↔ e ∈ l := by
  induction l with
  | nil => simp [sortNewestFirst]
  | cons a rest ih => simp [sortNewestFirst, mem_insertNewestFirst, ih]

theorem length_insertNewestFirst (d : MDoc) (l : List MDoc) :
    (insertNewestFirst d l).length = l.length + 1 := by
  induction l with
  | nil => rfl
  | cons a rest ih =>
    by_cases hc : a.createdAt < d.createdAt
    · simp [insertNewestFirst, hc]
    · simp [insertNewestFirst, hc, ih]

theorem length_sortNewestFirst (l : List MDoc) :
    (sortNewestFirst l).length = l.length := by
  induction l with
  | nil => rfl
  | cons a rest ih => simp [sortNewestFirst, length_insertNewestFirst, ih]

theorem reachable_proxyConfigs_le_one :
    ∀ st, ReachableProxy st → st.proxyConfigs.length ≤ 1 := by
  intro st h
  induction h with
  | init => simp
  | step st' op _ ih =>
    cases op with
    | update config now =>
      show (updateProxyConfig config st' now).2.proxyConfigs.length ≤ 1
      unfold updateProxyConfig findOneAndUpdateAll
      cases hc : st'.proxyConfigs with
      | nil => simp
      | cons d rest =>
        rw [hc] at ih
        simpa using ih
    | logTraffic request response now =>
      show (logProxyTraffic request response st' now).2.proxyConfigs.length ≤ 1
      rw [logProxyTraffic_fails]
      exact ih
    | forward modifiedRequest targetResponse now =>
      show (forwardProxyRequest modifiedRequest targetResponse st' now).2.proxyConfigs.length ≤ 1
      rw [forwardProxyRequest_eq]
      exact ih
    | inject responseData => exact ih

/-- C6: from a reachable state — the empty deployment after one
configuration update — a query over the whole date range with no
target-url and no method filter returns the configuration document itself
(it carries `targetHostname`, and no `method` or `url` field), while the
stored set of TrafficRecords is empty: `logProxyTraffic` on this state
fails with `ProxyTrafficLogError` and stores nothing.  So `query` does not
return exactly the matching TrafficRecords — it returns a non-record. -/
theorem claim6_counterexample :
    getProxyTraffic exNoFilterQuery exConfigState = [⟨exGoodConfig, 1⟩]
    ∧ getProxyTraffic exNoFilterQuery exConfigState ≠ []
    ∧ getField exGoodConfig "targetHostname" = some (JVal.str "example.com")
    ∧ getField exGoodConfig "method" = none
    ∧ getField exGoodConfig "url" = none
    ∧ (logProxyTraffic exTrafficRequest exTrafficResponse exConfigState 2).1
      = Except.error (ErrKind.proxyTrafficLogError "Error logging proxy traffic")
    ∧ (logProxyTraffic exTrafficRequest exTrafficResponse exConfigState 2).2 = exConfigState
    ∧ ReachableProxy exConfigState :=
  ⟨rfl, List.cons_ne_nil _ _, rfl, rfl, rfl, rfl, rfl,
    ReachableProxy.step exState0 (ProxyOp.update exGoodConfig 1) ReachableProxy.init⟩

/-- C6 (amended): `getProxyTraffic` queries the one shared `ProxyConfig`
collection.  No TrafficRecord is ever stored — `logProxyTraffic` always
fails schema validation (the strict-mode schema strips the traffic fields
and the required `targetHostname`/`targetPort` are then absent), leaving
the state unchanged — so in every reachable state the query returns only
date-range/filter-matching documents of that collection, which is at most
the configuration document, and never a stored TrafficRecord. -/
theorem claim6_theorem :
    (∀ (request response : JVal) (st : ProxyState) (now : Nat),
      logProxyTraffic request response st now
        = (Except.error (ErrKind.proxyTrafficLogError "Error logging proxy traffic"), st))
    ∧ (∀ (f : TrafficFilters) (st : ProxyState), ReachableProxy st →
        ∀ d ∈ getProxyTraffic f st, d ∈ st.proxyConfigs ∧ matchesQuery f d = true)
    ∧ (∀ (f : TrafficFilters) (st : ProxyState), ReachableProxy st →
        (getProxyTraffic f st).length ≤ 1) := by
  refine ⟨fun request response st now => logProxyTraffic_fails request response st now, ?_, ?_⟩
  · intro f st _ d hd
    unfold getProxyTraffic at hd
    have h1 : d ∈ sortNewestFirst (st.proxyConfigs.filter (matchesQuery f)) :=
      List.drop_subset _ _ (List.take_subset _ _ hd)
    have h2 := (mem_sortNewestFirst d _).mp h1
    exact ⟨(List.mem_filter.mp h2).1, (List.mem_filter.mp h2).2⟩
  · intro f st hre
    unfold getProxyTraffic
    have hs : (sortNewestFirst (st.proxyConfigs.filter (matchesQuery f))).length ≤ 1 := by
      rw [length_sortNewestFirst]
      exact le_trans (List.length_filter_le _ _) (reachable_proxyConfigs_le_one st hre)
    have hdrop : ((sortNewestFirst (st.proxyConfigs.filter (matchesQuery f))).drop
        ((f.page - 1) * f.limit)).length
        ≤ (sortNewestFirst (st.proxyConfigs.filter (matchesQuery f))).length := by
      rw [List.length_drop]
      exact Nat.sub_le _ _
    have htake : (((sortNewestFirst (st.proxyConfigs.filter (matchesQuery f))).drop
        ((f.page - 1) * f.limit)).take f.limit).length
        ≤ ((sortNewestFirst (st.proxyConfigs.filter (matchesQuery f))).drop
        ((f.page - 1) * f.limit)).length := by
      rw [List.length_take]
      exact min_le_right _ _
    exact le_trans htake (le_trans hdrop hs)

theorem claim6_witness :
    ReachableProxy exConfigState
    ∧ (⟨exGoodConfig, 1⟩ : MDoc) ∈ getProxyTraffic exNoFilterQuery exConfigState
    ∧ ((⟨exGoodConfig, 1⟩ : MDoc) ∈ exConfigState.proxyConfigs
        ∧ matchesQuery exNoFilterQuery ⟨exGoodConfig, 1⟩ = true)
    ∧ (getProxyTraffic exNoFilterQuery exConfigState).length ≤ 1 := by
  have hr : ReachableProxy exConfigState :=
    ReachableProxy.step exState0 (ProxyOp.update exGoodConfig 1) ReachableProxy.init
  have hm : (⟨exGoodConfig, 1⟩ : MDoc) ∈ getProxyTraffic exNoFilterQuery exConfigState := by
    rw [show getProxyTraffic exNoFilterQuery exConfigState
        = [(⟨exGoodConfig, 1⟩ : MDoc)] from rfl]
    exact List.mem_singleton.mpr rfl
  exact ⟨hr, hm, claim6_theorem.2.1 exNoFilterQuery exConfigState hr _ hm,
    claim6_theorem.2.2 exNoFilterQuery exConfigState hr⟩

/-- C8: `updateProxyConfig` with the spec's invalid hostname input
succeeds and writes the configuration — `findOneAndUpdate` runs no schema
validator because `runValidators` is not passed — so the stored
configuration now carries a hostname the schema's own grammar rejects,
instead of the claimed `InvalidInputError` with no write. -/
theorem claim8_bug_eval :
    (updateProxyConfig exBadConfig exState0 5).1 = Except.ok ()
    ∧ (updateProxyConfig exBadConfig exState0 5).2.proxyConfigs = [⟨exBadConfig, 5⟩]
    ∧ getField ((updateProxyConfig exBadConfig exState0 5).2.proxyConfigs.headD ⟨[], 0⟩).fields
        "targetHostname" = some (JVal.str "bad hostname!")
    ∧ validHostname "bad hostname!" = false :=
  ⟨rfl, rfl, rfl, by decide⟩

/-- C9: the ProxyConfiguration is a singleton: every state reachable from
the empty deployment holds at most one `ProxyConfig` document; every
state-touching operation other than `updateProxyConfig` leaves the
collection unchanged (`logProxyTraffic` always fails validation and
stores nothing, forwarding only logs, injection touches nothing);
`updateProxyConfig` on a one-document collection rewrites that document in
place, keeping its identity and creation time, rather than adding another;
and no operation shrinks the collection — nothing deletes the
configuration. -/
theorem claim9_theorem :
    (∀ st, ReachableProxy st → st.proxyConfigs.length ≤ 1)
    ∧ (∀ (st : ProxyState) (request response : JVal) (now : Nat),
        (logProxyTraffic request response st now).2 = st)
    ∧ (∀ (st : ProxyState) (modifiedRequest targetResponse : JVal) (now : Nat),
        (forwardProxyRequest modifiedRequest targetResponse st now).2.proxyConfigs
          = st.proxyConfigs)
    ∧ (∀ (st : ProxyState) (responseData : JVal),
        (injectCustomResponseS responseData st).2 = st)
    ∧ (∀ (st : ProxyState) (config : List (String × JVal)) (now : Nat) (d : MDoc),
        st.proxyConfigs = [d] →
        (updateProxyConfig config st now).2.proxyConfigs
          = [⟨applyUpdate d.fields config, d.createdAt⟩])
    ∧ (∀ (st : ProxyState) (op : ProxyOp),
        st.proxyConfigs.length ≤ (applyOp st op).proxyConfigs.length) := by
  refine ⟨reachable_proxyConfigs_le_one, ?_, ?_, ?_, ?_, ?_⟩
  · intro st request response now
    rw [logProxyTraffic_fails]
  · intro st modifiedRequest targetResponse now
    rw [forwardProxyRequest_eq]
  · intro st responseData
    rfl
  · intro st config now d hd
    show findOneAndUpdateAll st.proxyConfigs config now = _
    rw [hd]
    rfl
  · intro st op
    cases op with
    | update config now =>
      show st.proxyConfigs.length ≤ (updateProxyConfig config st now).2.proxyConfigs.length
      unfold updateProxyConfig findOneAndUpdateAll
      cases hc : st.proxyConfigs with
      | nil => simp
      | cons d rest => simp
    | logTraffic request response now =>
      show st.proxyConfigs.length ≤ (logProxyTraffic request response st now).2.proxyConfigs.length
      rw [logProxyTraffic_fails]
    | forward modifiedRequest targetResponse now =>
      show st.proxyConfigs.length
          ≤ (forwardProxyRequest modifiedRequest targetResponse st now).2.proxyConfigs.length
      rw [forwardProxyRequest_eq]
    | inject responseData => exact Nat.le_refl _

theorem claim9_witness :
    ReachableProxy exConfigState
    ∧ exConfigState.proxyConfigs.length ≤ 1
    ∧ exConfigState.proxyConfigs = [⟨exGoodConfig, 1⟩]
    ∧ (updateProxyConfig exGoodConfig exConfigState 3).2.proxyConfigs
      = [⟨applyUpdate (⟨exGoodConfig, 1⟩ : MDoc).fields exGoodConfig, 1⟩]
    ∧ (logProxyTraffic exTrafficRequest exTrafficResponse exConfigState 2).2
      = exConfigState := by
  have hr : ReachableProxy exConfigState :=
    ReachableProxy.step exState0 (ProxyOp.update exGoodConfig 1) ReachableProxy.init
  exact ⟨hr, claim9_theorem.1 exConfigState hr, rfl,
    claim9_theorem.2.2.2.2.1 exConfigState exGoodConfig 3 ⟨exGoodConfig, 1⟩ rfl,
    claim9_theorem.2.1 exConfigState exTrafficRequest exTrafficResponse 2⟩

/-- C7: a second create with an already-stored name fails, but with the
collapsed `InvalidScriptError('Error creating userscript')` — there is no
`DuplicateNameError` anywhere in the sources — refuting the claimed error
kind (the store is left unchanged). -/
theorem claim7_counterexample :
    (createScript exDupData exScriptStore "id2" 7).1
      = Except.error (ErrKind.invalidScriptError "Error creating userscript")
    ∧ (createScript exDupData exScriptStore "id2" 7).1
      ≠ Except.error ErrKind.duplicateNameError
    ∧ (createScript exDupData exScriptStore "id2" 7).2 = exScriptStore :=
  ⟨rfl, by intro h; injection h with h2; exact ErrKind.noConfusion h2, rfl⟩

/-- C7 (amended): when a script with the requested name is already stored,
a second `createScript` fails with
`InvalidScriptError('Error creating userscript')` (every failure,
duplicate-name included, collapses to this error), the store — and so the
first script — is unchanged, and name uniqueness is preserved. -/
theorem claim7_theorem (st : ScriptStore) (d : ScriptData) (newId : String) (now : Nat)
    (hU : (st.map fun s => s.name).Nodup)
    (hEx : ∃ s ∈ st, s.name = (sanitizeScript d).name) :
    (createScript d st newId now).1
      = Except.error (ErrKind.invalidScriptError "Error creating userscript")
    ∧ (createScript d st newId now).2 = st
    ∧ ((createScript d st newId now).2.map fun s => s.name).Nodup := by
  obtain ⟨s, hs, hname⟩ := hEx
  have hall : st.all (fun s2 => s2.name != (sanitizeScript d).name) = false := by
    cases hAll : st.all (fun s2 => s2.name != (sanitizeScript d).name) with
    | false => rfl
    | true =>
      have hmem := List.all_eq_true.mp hAll s hs
      rw [hname] at hmem
      simp at hmem
  have hsave : userscriptSave (sanitizeScript d) st newId now = none := by
    simp [userscriptSave, hall]
  unfold createScript
  rw [hsave]
  exact ⟨rfl, rfl, hU⟩

theorem claim7_witness :
    (exScriptStore.map fun s => s.name).Nodup
    ∧ (∃ s ∈ exScriptStore, s.name = (sanitizeScript exDupData).name)
    ∧ (createScript exDupData exScriptStore "id2" 7).1
      = Except.error (ErrKind.invalidScriptError "Error creating userscript")
    ∧ (createScript exDupData exScriptStore "id2" 7).2 = exScriptStore :=
  ⟨by decide, ⟨exScriptDoc, by simp [exScriptStore], rfl⟩,
    (claim7_theorem exScriptStore exDupData "id2" 7 (by decide)
      ⟨exScriptDoc, by simp [exScriptStore], rfl⟩).1,
    (claim7_theorem exScriptStore exDupData "id2" 7 (by decide)
      ⟨exScriptDoc, by simp [exScriptStore], rfl⟩).2.1⟩

theorem nthObj_setNth_ne (l : List HObj) (x : HObj) :
    ∀ a b, b ≠ a → nthObj (setNth l a x) b = nthObj l b := by
  induction l with
  | nil => intro a b _; rfl
  | cons o rest ih =>
    intro a b hne
    cases a with
    | zero =>
      cases b with
      | zero => exact absurd rfl hne
      | succ b' => rfl
    | succ a' =>
      cases b with
      | zero => rfl
      | succ b' =>
        have : b' ≠ a' := fun hb => hne (by rw [hb])
        simpa [setNth, nthObj] using ih a' b' this

theorem nthObj_append_lt (l1 l2 : List HObj) :
    ∀ n, n < l1.length → nthObj (l1 ++ l2) n = nthObj l1 n := by
  induction l1 with
  | nil => intro n hn; simp at hn
  | cons o rest ih =>
    intro n hn
    cases n with
    | zero => rfl
    | succ n' =>
      simp only [List.length_cons, Nat.succ_lt_succ_iff] at hn
      simpa [nthObj] using ih n' hn

theorem nthObj_append_len (l1 : List HObj) (o : HObj) (l2 : List HObj) :
    nthObj (l1 ++ o :: l2) l1.length = o := by
  induction l1 with
  | nil => rfl
  | cons p rest ih => simpa [nthObj] using ih

theorem getFieldH_setFieldListH_same (o : HObj) (k : String) (v : HVal) :
    getFieldH (setFieldListH o k v) k = some v := by
  induction o with
  | nil => simp [setFieldListH, getFieldH]
  | cons p rest ih =>
    by_cases hk : p.1 = k
    · simp [setFieldListH, hk, getFieldH]
    · simp [setFieldListH, hk, getFieldH, ih]

theorem getFieldH_setFieldListH_ne (o : HObj) (k k' : String) (v : HVal)
    (h : k' ≠ k) : getFieldH (setFieldListH o k' v) k = getFieldH o k := by
  induction o with
  | nil => simp [setFieldListH, getFieldH, h]
  | cons p rest ih =>
    by_cases hk : p.1 = k'
    · simp [setFieldListH, hk, getFieldH, h]
    · simp only [setFieldListH, hk, if_false]
      by_cases hk2 : p.1 = k
      · simp [getFieldH, hk2]
      · simp [getFieldH, hk2, ih]

theorem materialize_frame (a : Nat) (k : String) (w : HVal) :
    ∀ (fuel : Nat) (h : Heap) (v : HVal), a ∉ reach h fuel v →
      materialize (setFieldH h a k w) fuel v = materialize h fuel v := by
  intro fuel
  induction fuel with
  | zero => intro h v _; cases v <;> rfl
  | succ f ih =>
    intro h v hna
    cases v with
    | undef => rfl
    | vnull => rfl
    | bool b => rfl
    | num n => rfl
    | str s => rfl
    | ref b =>
      have hre : reach h (f + 1) (HVal.ref b)
          = b :: ((getObjH h b).map fun kv => reach h f kv.2).flatten := rfl
      rw [hre] at hna
      have hab : a ≠ b := fun he => hna (he ▸ List.mem_cons_self _ _)
      have hsub : ∀ kv ∈ getObjH h b, a ∉ reach h f kv.2 := by
        intro kv hkv hmem
        exact hna (List.mem_cons_of_mem _
          (List.mem_flatten.mpr ⟨reach h f kv.2, List.mem_map_of_mem _ hkv, hmem⟩))
      have hobj : getObjH (setFieldH h a k w) b = getObjH h b := by
        unfold setFieldH getObjH
        exact nthObj_setNth_ne _ _ a b (fun hb => hab hb.symm)
      simp only [materialize, hobj]
      congr 1
      apply List.map_congr_left
      intro kv hkv
      rw [ih h kv.2 (hsub kv hkv)]

theorem modifyH_true_eq (h : Heap) (ra : Nat)
    (htr : truthyH (fieldD (getObjH h ra) "body") = true) :
    modifyProxyRequestH h ra =
      (⟨h.objs ++ [spreadH h (fieldD (getObjH h ra) "headers")]
          ++ [spreadH (⟨h.objs ++ [spreadH h (fieldD (getObjH h ra) "headers")]⟩ : Heap)
                (fieldD (getObjH h ra) "body")]
          ++ [setFieldListH (setFieldListH (getObjH h ra) "headers" (HVal.ref h.objs.length))
                "body" (HVal.ref (h.objs ++ [spreadH h (fieldD (getObjH h ra) "headers")]).length)]⟩,
        (h.objs ++ [spreadH h (fieldD (getObjH h ra) "headers")]
          ++ [spreadH (⟨h.objs ++ [spreadH h (fieldD (getObjH h ra) "headers")]⟩ : Heap)
                (fieldD (getObjH h ra) "body")]).length) := by
  unfold modifyProxyRequestH allocH
  simp only [htr, if_true]

theorem modifyH_false_eq (h : Heap) (ra : Nat)
    (htr : truthyH (fieldD (getObjH h ra) "body") = false) :
    modifyProxyRequestH h ra =
      (⟨h.objs ++ [spreadH h (fieldD (getObjH h ra) "headers")]
          ++ [setFieldListH (setFieldListH (getObjH h ra) "headers" (HVal.ref h.objs.length))
                "body" HVal.vnull]⟩,
        (h.objs ++ [spreadH h (fieldD (getObjH h ra) "headers")]).length) := by
  unfold modifyProxyRequestH allocH
  simp only [htr, if_false, Bool.false_eq_true]

/-- C5: the copy `modifyProxyRequest` returns is shallow: the object
nested inside the input's `headers` stays shared, so mutating it after
the call changes the returned value — here the nested field `x` of the
returned object's `headers.inner` reads `1` before the mutation and `2`
after it, refuting deep-copy independence. -/
theorem claim5_counterexample :
    fieldD (getObjH exHeap 1) "inner" = HVal.ref 2
    ∧ getFieldD (getFieldD (getFieldD
        (materialize (modifyProxyRequestH exHeap 0).1 10
          (HVal.ref (modifyProxyRequestH exHeap 0).2)) "headers") "inner") "x"
      = JVal.num 1
    ∧ getFieldD (getFieldD (getFieldD
        (materialize (setFieldH (modifyProxyRequestH exHeap 0).1 2 "x" (HVal.num 2)) 10
          (HVal.ref (modifyProxyRequestH exHeap 0).2)) "headers") "inner") "x"
      = JVal.num 2
    ∧ (JVal.num 1 : JVal) ≠ JVal.num 2 :=
  ⟨rfl, rfl, rfl, by intro hh; injection hh with h2; omega⟩

/-- C5 (amended): `modifyProxyRequest` freshly allocates the returned
top-level object and its `headers`/`body` copies, so mutating any object
not reachable from the returned value — in particular the caller's input
object and its direct `headers`/`body` objects, absent back-references —
leaves the returned value unchanged; but the copies share their entries
with the input (the returned `headers` object holds exactly the stored
values, object references included, of the input's headers), so deeper
mutations remain visible. -/
theorem claim5_theorem :
    (∀ (h : Heap) (ra a : Nat) (k : String) (w : HVal) (fuel : Nat),
      a ∉ reach (modifyProxyRequestH h ra).1 fuel (HVal.ref (modifyProxyRequestH h ra).2) →
      materialize (setFieldH (modifyProxyRequestH h ra).1 a k w) fuel
          (HVal.ref (modifyProxyRequestH h ra).2)
        = materialize (modifyProxyRequestH h ra).1 fuel
          (HVal.ref (modifyProxyRequestH h ra).2))
    ∧ (∀ (h : Heap) (ra : Nat), ∃ ha,
        fieldD (getObjH (modifyProxyRequestH h ra).1 (modifyProxyRequestH h ra).2) "headers"
          = HVal.ref ha
        ∧ getObjH (modifyProxyRequestH h ra).1 ha
          = spreadH h (fieldD (getObjH h ra) "headers")) := by
  constructor
  · intro h ra a k w fuel hna
    exact materialize_frame a k w fuel _ _ hna
  · intro h ra
    refine ⟨h.objs.length, ?_, ?_⟩
    · cases htr : truthyH (fieldD (getObjH h ra) "body") with
      | true =>
        rw [modifyH_true_eq h ra htr]
        show fieldD (nthObj _ _) "headers" = HVal.ref h.objs.length
        rw [nthObj_append_len]
        unfold fieldD
        rw [getFieldH_setFieldListH_ne _ _ _ _ (by decide)]
        rw [getFieldH_setFieldListH_same]
        rfl
      | false =>
        rw [modifyH_false_eq h ra htr]
        show fieldD (nthObj _ _) "headers" = HVal.ref h.objs.length
        rw [nthObj_append_len]
        unfold fieldD
        rw [getFieldH_setFieldListH_ne _ _ _ _ (by decide)]
        rw [getFieldH_setFieldListH_same]
        rfl
    · cases htr : truthyH (fieldD (getObjH h ra) "body") with
      | true =>
        rw [modifyH_true_eq h ra htr]
        show nthObj _ _ = spreadH h (fieldD (getObjH h ra) "headers")
        rw [nthObj_append_lt _ _ _ (by simp), nthObj_append_lt _ _ _ (by simp),
          nthObj_append_len]
      | false =>
        rw [modifyH_false_eq h ra htr]
        show nthObj _ _ = spreadH h (fieldD (getObjH h ra) "headers")
        rw [nthObj_append_lt _ _ _ (by simp), nthObj_append_len]

theorem claim5_witness :
    (0 ∉ reach (modifyProxyRequestH exHeap 0).1 6 (HVal.ref (modifyProxyRequestH exHeap 0).2))
    ∧ materialize (setFieldH (modifyProxyRequestH exHeap 0).1 0 "method" (HVal.str "PUT")) 6
        (HVal.ref (modifyProxyRequestH exHeap 0).2)
      = materialize (modifyProxyRequestH exHeap 0).1 6
        (HVal.ref (modifyProxyRequestH exHeap 0).2) :=
  ⟨by decide, claim5_theorem.1 exHeap 0 0 "method" (HVal.str "PUT") 6 (by decide)⟩

end AIIPST
